import Mathlib

/-!
Shallow embedding of the SONIC detection-tracking engine
(`src/sonic/src/core/models.py`, `src/sonic/src/core/tracker.py`,
`src/sonic/src/cli.py` alert/session logic, `src/sonic/src/alerts/*`).

Modelling conventions:
* Python `datetime` instants are abstract `Nat` tick values; `isoformat`
  is an abstract injective rendering (`toString`).
* Python `float` pixel distances are handled exactly: the source compares
  `((dx**2 + dy**2) ** 0.5) < best` where both sides are non-negative, so
  we compare the squared integer distance against the squared threshold
  (first acceptance: `dist < thr ↔ 0 < thr ∧ dist² < thr²`; replacement:
  `dist < best ↔ dist² < best²`), with thresholds and times as `ℚ`.
* Python `dict[int, Track]` preserves insertion order and is iterated in
  that order, so the track map is a `List Track` in insertion order with
  the key stored in `Track.track_id`.
* `list.remove(x)` removes the first structurally equal element
  (`Detection` is a frozen dataclass), i.e. `List.erase`.
-/

/-- Immutable detection result from a single frame
(`models.py::Detection`). -/
structure Detection where
  x : Int
  y : Int
  width : Int
  height : Int
  confidence : ℚ
  class_name : String
  timestamp : Nat
  frame_id : Nat
deriving DecidableEq, Repr

/-- Center of the bounding box: `(x + width // 2, y + height // 2)`,
Python floor division (`models.py::Detection.center`). -/
def Detection.center (d : Detection) : Int × Int :=
  (d.x + Int.fdiv d.width 2, d.y + Int.fdiv d.height 2)

/-- Mutable track: temporal sequence of detections plus lifecycle flags
(`models.py::Track`). -/
structure Track where
  track_id : Nat
  detections : List Detection
  last_seen : Nat
  is_active : Bool := true
  alert_sent : Bool := false
deriving DecidableEq, Repr

/-- Most recent detection, `detections[-1]` if any
(`models.py::Track.latest_detection`). -/
def Track.latest_detection (t : Track) : Option Detection :=
  t.detections.getLast?

/-- Earliest detection, `detections[0]` if any
(`models.py::Track.first_detection`). -/
def Track.first_detection (t : Track) : Option Detection :=
  t.detections.head?

/-- Number of detections in the track (`models.py::Track.length`). -/
def Track.length (t : Track) : Nat :=
  t.detections.length

/-- Squared Euclidean distance between two pixel centers; the source
takes the square root before comparing, which we eliminate (see the
module docstring). -/
def sqDist (a b : Int × Int) : Int :=
  (b.1 - a.1) * (b.1 - a.1) + (b.2 - a.2) * (b.2 - a.2)

/-- Exact decidable form of the source's first acceptance test
`distance < best_distance` while `best_distance` still holds the
threshold: for a non-negative squared distance `s`,
`Real.sqrt s < thr ↔ 0 < thr ∧ (s : ℚ) < thr * thr`, written over the
integers via `thr = thr.num / thr.den` so that the kernel can evaluate
it (see `acceptsFirst_iff`). -/
def acceptsFirst (thr : ℚ) (s : Int) : Prop :=
  0 < thr.num ∧ s * (thr.den : Int) * (thr.den : Int) < thr.num * thr.num

instance (thr : ℚ) (s : Int) : Decidable (acceptsFirst thr s) :=
  inferInstanceAs (Decidable (_ ∧ _))

/-- Exact decidable form of the source's cooldown gate
`current_time - last_alert_time < alert_cooldown`, written over the
integers by clearing the three denominators (see `subLt_iff`). -/
def subLt (now last cooldown : ℚ) : Prop :=
  (now.num * (last.den : Int) - last.num * (now.den : Int)) * (cooldown.den : Int) <
    cooldown.num * ((now.den : Int) * (last.den : Int))

instance (now last cooldown : ℚ) : Decidable (subLt now last cooldown) :=
  inferInstanceAs (Decidable (_ < _))

/-- Tracker state (`tracker.py::Tracker.__init__`). -/
structure Tracker where
  distance_threshold : ℚ
  max_age : Nat
  tracks : List Track := []
  next_track_id : Nat := 0
deriving Repr

/-- Fresh tracker with the given parameters. -/
def mkTracker (thr : ℚ) (age : Nat) : Tracker :=
  { distance_threshold := thr, max_age := age }

/-- Loop body of `tracker.py::Tracker._find_best_match`: scan the
candidates keeping the strictly closest one seen so far.  `best` and
`bs` are the current best detection and its squared distance (`none`
while `best_distance` still holds the threshold).  The acceptance tests
are the exact-arithmetic equivalents of the source's float comparisons:
a candidate at distance `s` beats the initial threshold `thr` iff
`0 < thr ∧ s < thr * thr`, and beats a previous best squared distance
`b` iff `s < b`. -/
def bestMatchAux (c : Int × Int) (thr : ℚ) :
    List Detection → Option Detection → Option Int → Option Detection × Option Int
  | [], best, bs => (best, bs)
  | d :: rest, best, bs =>
    let s := sqDist c d.center
    match bs with
    | none =>
      if acceptsFirst thr s then
        bestMatchAux c thr rest (some d) (some s)
      else
        bestMatchAux c thr rest best none
    | some b =>
      if s < b then
        bestMatchAux c thr rest (some d) (some s)
      else
        bestMatchAux c thr rest best (some b)

/-- Invariant linking the accumulator components of `bestMatchAux`: the
stored squared distance is exactly that of the stored best candidate,
which has passed the threshold test; both components are `none` while
no candidate has been accepted. -/
def BMInv (thr : ℚ) (c : Int × Int) : Option Detection → Option Int → Prop
  | none, none => True
  | some d, some b => b = sqDist c d.center ∧ acceptsFirst thr b
  | _, _ => False

/-- Closest candidate strictly within the threshold, `none` when the
track has no detections or nothing qualifies
(`tracker.py::Tracker._find_best_match`). -/
def findBestMatch (thr : ℚ) (track : Track) (detections : List Detection) :
    Option Detection :=
  match track.latest_detection with
  | none => none
  | some last => (bestMatchAux last.center thr detections none none).1

/-- Frame of the track's latest detection, 0 when there is none
(`tracker.py` line 57: `track.latest_detection.frame_id if
track.latest_detection else 0`). -/
def lastFrameOf (track : Track) : Nat :=
  match track.latest_detection with
  | some ld => ld.frame_id
  | none => 0

/-- Expiry branch of the matching loop (`tracker.py` lines 56-60): a
track with no match is deactivated when
`frame_id - latest_detection.frame_id > max_age`. -/
def expireCheck (max_age : Nat) (frame_id : Nat) (track : Track) : Track :=
  if (frame_id : Int) - (lastFrameOf track : Int) > (max_age : Int) then
    { track with is_active := false }
  else
    track

/-- Matching loop of `tracker.py::Tracker.update` (lines 44-60): visit
the tracks in map order, skip inactive or empty ones, append the best
match and drop it from the unmatched pool, otherwise run the expiry
check.  Returns the updated tracks (same order) and the remaining
unmatched detections. -/
def matchLoop (thr : ℚ) (max_age : Nat) (frame_id : Nat) :
    List Track → List Detection → List Track × List Detection
  | [], unmatched => ([], unmatched)
  | t :: rest, unmatched =>
    if !t.is_active || t.detections.isEmpty then
      let r := matchLoop thr max_age frame_id rest unmatched
      (t :: r.1, r.2)
    else
      match findBestMatch thr t unmatched with
      | some d =>
        let t' := { t with
          detections := t.detections ++ [d]
          last_seen := d.timestamp }
        let r := matchLoop thr max_age frame_id rest (unmatched.erase d)
        (t' :: r.1, r.2)
      | none =>
        let r := matchLoop thr max_age frame_id rest unmatched
        (expireCheck max_age frame_id t :: r.1, r.2)

/-- Creation loop of `tracker.py::Tracker.update` (lines 62-71): each
unmatched detection spawns a track with the next fresh id, seeded with
that one detection.  Returns the new tracks and the next counter
value. -/
def createTracks (next_id : Nat) : List Detection → List Track × Nat
  | [] => ([], next_id)
  | d :: rest =>
    let t : Track :=
      { track_id := next_id
        detections := [d]
        last_seen := d.timestamp }
    let r := createTracks (next_id + 1) rest
    (t :: r.1, r.2)

/-- Currently active tracks, in map order
(`tracker.py::Tracker.active_tracks`). -/
def Tracker.active_tracks (tr : Tracker) : List Track :=
  tr.tracks.filter (fun t => t.is_active)

/-- One call to `tracker.py::Tracker.update`: fast path when both the
detections and the track map are empty, otherwise match, create, and
return the active tracks together with the new tracker state. -/
def Tracker.update (tr : Tracker) (detections : List Detection)
    (frame_id : Nat) : List Track × Tracker :=
  if detections.isEmpty && tr.tracks.isEmpty then
    ([], tr)
  else
    let m := matchLoop tr.distance_threshold tr.max_age frame_id tr.tracks detections
    let c := createTracks tr.next_track_id m.2
    let tr' : Tracker := { tr with tracks := m.1 ++ c.1, next_track_id := c.2 }
    (tr'.active_tracks, tr')

/-- Clear all tracks and reset the id counter
(`tracker.py::Tracker.reset`). -/
def Tracker.reset (tr : Tracker) : Tracker :=
  { tr with tracks := [], next_track_id := 0 }

/-- Alert handler capability (`alerts/base.py::AlertHandler`): sending an
alert for a track is side-effecting and can fail; a failure carries the
exception message.  The handlers' external effects (console, file, log)
are outside the model; only success or failure of each invocation is
observable. -/
def Handler : Type :=
  Track → Except String Unit

/-- Record of one handler invocation during alert dispatch. -/
structure AlertEvent where
  track_id : Nat
  handler_idx : Nat
  ok : Bool
deriving DecidableEq, Repr

/-- Handler loop of `cli.py::DetectionSession._check_alerts` (lines
81-85): every registered handler is invoked in registration order; each
call sits inside try/except, so a failure is logged and the loop
continues with the next handler and no failure escapes the loop.  The
trace records every attempted invocation in order. -/
def dispatchToHandlers (handlers : List Handler) (t : Track) : List AlertEvent :=
  handlers.enum.map (fun p =>
    { track_id := t.track_id
      handler_idx := p.1
      ok := match p.2 t with
            | Except.ok _ => true
            | Except.error _ => false })

/-- Body of the qualifying-track branch of `_check_alerts` (lines
81-86): dispatch to every handler, then mark the track `alert_sent`
unconditionally, whatever the individual handler outcomes were. -/
def fireAlert (handlers : List Handler) (t : Track) : Track × List AlertEvent :=
  ({ t with alert_sent := true }, dispatchToHandlers handlers t)

/-- Track loop of `_check_alerts` (lines 79-87): every track with
`alert_sent == False` and at least one detection fires; `last_alert_time`
is set to the current time at each firing.  The cooldown gate sits
outside this loop, so firing does not stop the pass. -/
def alertLoop (handlers : List Handler) (now : ℚ) :
    List Track → ℚ → List Track × ℚ × List AlertEvent
  | [], la => ([], la, [])
  | t :: rest, la =>
    if t.alert_sent = false ∧ 0 < t.length then
      let f := fireAlert handlers t
      let r := alertLoop handlers now rest now
      (f.1 :: r.1, r.2.1, f.2 ++ r.2.2)
    else
      let r := alertLoop handlers now rest la
      (t :: r.1, r.2.1, r.2.2)

/-- One call to `cli.py::DetectionSession._check_alerts`: return
immediately when `current_time - last_alert_time < alert_cooldown`
(cooldown not yet elapsed), otherwise run the track loop.  Returns the
updated tracks, the new `last_alert_time`, and the handler-invocation
trace. -/
def checkAlerts (cooldown : ℚ) (handlers : List Handler) (now : ℚ)
    (last_alert_time : ℚ) (tracks : List Track) :
    List Track × ℚ × List AlertEvent :=
  if subLt now last_alert_time cooldown then
    (tracks, last_alert_time, [])
  else
    alertLoop handlers now tracks last_alert_time

/-- Drive a whole session's frames through the tracker, collecting each
call's returned active-track list (the `Tracker.update` calls issued by
`cli.py::DetectionSession.process_frame`). -/
def runUpdates (tr : Tracker) : List (List Detection × Nat) → List (List Track) × Tracker
  | [] => ([], tr)
  | (ds, fid) :: rest =>
    let r := tr.update ds fid
    let rr := runUpdates r.2 rest
    (r.1 :: rr.1, rr.2)

/-- JSON document model for the persisted session file; `json.dumps`
followed by `json.loads` is the identity on such documents, so the
round-trip is modelled at the document level. -/
inductive Json where
  | null
  | bool (b : Bool)
  | num (q : ℚ)
  | str (s : String)
  | arr (elems : List Json)
  | obj (fields : List (String × Json))

/-- Abstract injective rendering of a timestamp instant
(`datetime.isoformat`). -/
def isoformat (ts : Nat) : String :=
  toString ts

/-- Serialization of a detection (`models.py::Detection.to_dict`). -/
def Detection.to_dict (d : Detection) : Json :=
  Json.obj
    [ ("x", Json.num (d.x : ℚ))
    , ("y", Json.num (d.y : ℚ))
    , ("width", Json.num (d.width : ℚ))
    , ("height", Json.num (d.height : ℚ))
    , ("confidence", Json.num d.confidence)
    , ("class_name", Json.str d.class_name)
    , ("timestamp", Json.str (isoformat d.timestamp))
    , ("frame_id", Json.num (d.frame_id : ℚ)) ]

/-- Serialization of track metadata (`models.py::Track.to_dict`). -/
def Track.to_dict (t : Track) : Json :=
  Json.obj
    [ ("track_id", Json.num (t.track_id : ℚ))
    , ("is_active", Json.bool t.is_active)
    , ("detection_count", Json.num (t.length : ℚ))
    , ("first_seen",
        match t.first_detection with
        | some d => Json.str (isoformat d.timestamp)
        | none => Json.null)
    , ("last_seen", Json.str (isoformat t.last_seen))
    , ("alert_sent", Json.bool t.alert_sent) ]

/-- The session summary document built by
`cli.py::DetectionSession._save_results` (the argument of
`json.dumps`), parametrized by the session timestamp, the frame
counter, the detection history, and the tracker's track map in map
order. -/
def sessionSummary (session_ts frame_count : Nat)
    (detection_history : List Detection) (tracks : List Track) : Json :=
  Json.obj
    [ ("session_info", Json.obj
        [ ("timestamp", Json.str (isoformat session_ts))
        , ("total_frames", Json.num (frame_count : ℚ))
        , ("total_detections", Json.num (detection_history.length : ℚ))
        , ("total_tracks", Json.num (tracks.length : ℚ))
        , ("active_tracks",
            Json.num ((tracks.filter (fun t => t.is_active)).length : ℚ)) ])
    , ("detections", Json.arr (detection_history.map Detection.to_dict))
    , ("tracks", Json.arr (tracks.map Track.to_dict)) ]

/-- Field access on a parsed JSON object (as after `json.loads`). -/
def Json.getField (j : Json) (key : String) : Option Json :=
  match j with
  | Json.obj fields => fields.lookup key
  | _ => none

/-- Read a JSON number back as a natural count. -/
def Json.asCount (j : Json) : Option Nat :=
  match j with
  | Json.num q => if q.den = 1 ∧ 0 ≤ q.num then some q.num.toNat else none
  | _ => none

/-- Parse `session_info.total_frames` back from the persisted document. -/
def parseTotalFrames (j : Json) : Option Nat :=
  (j.getField "session_info").bind (fun s =>
    (s.getField "total_frames").bind Json.asCount)

/-- Parse `session_info.total_detections` back from the persisted
document. -/
def parseTotalDetections (j : Json) : Option Nat :=
  (j.getField "session_info").bind (fun s =>
    (s.getField "total_detections").bind Json.asCount)

/-- Read the `detection_count` field of each serialized track, failing
if any entry is missing or not a count. -/
def collectCounts : List Json → Option (List Nat)
  | [] => some []
  | x :: rest =>
    match (x.getField "detection_count").bind Json.asCount, collectCounts rest with
    | some n, some ns => some (n :: ns)
    | _, _ => none

/-- Parse every track's `detection_count` back from the persisted
document, in order. -/
def parseDetectionCounts (j : Json) : Option (List Nat) :=
  match j.getField "tracks" with
  | some (Json.arr xs) => collectCounts xs
  | _ => none

/-- Track-id discipline maintained by the tracker: map order is strictly
ascending id order, and every id is below the fresh-id counter. -/
def TrackerIdInv (tr : Tracker) : Prop :=
  List.Pairwise (fun a b => a < b) (tr.tracks.map Track.track_id) ∧
  ∀ t ∈ tr.tracks, t.track_id < tr.next_track_id

/-! Concrete fixtures used by the claim witnesses and counterexamples. -/

def dA : Detection :=
  { x := 100, y := 100, width := 50, height := 50, confidence := mkRat 9 10
    class_name := "mouse", timestamp := 1, frame_id := 1 }

def dB : Detection :=
  { x := 110, y := 105, width := 50, height := 50, confidence := mkRat 9 10
    class_name := "mouse", timestamp := 2, frame_id := 2 }






def tAlert0 : Track := { track_id := 0, detections := [dA], last_seen := 1 }

def tAlert1 : Track := { track_id := 1, detections := [dB], last_seen := 2 }

def okHandler : Handler := fun _ => Except.ok ()

def dT1 : Detection :=
  { x := 110, y := 100, width := 50, height := 50, confidence := mkRat 9 10
    class_name := "mouse", timestamp := 2, frame_id := 2 }

def dT2 : Detection :=
  { x := 90, y := 100, width := 50, height := 50, confidence := mkRat 9 10
    class_name := "mouse", timestamp := 2, frame_id := 2 }

def trOne : Tracker :=
  { distance_threshold := 50, max_age := 3, tracks := [tAlert0], next_track_id := 1 }

def failHandler : Handler := fun _ => Except.error "io unavailable"





/-! Bridge lemmas: the integer comparisons used by the embedding are
exactly the source's float comparisons read over the exact reals. -/

theorem sqDist_nonneg (a b : Int × Int) : 0 ≤ sqDist a b :=
  add_nonneg (mul_self_nonneg _) (mul_self_nonneg _)

/-- Cross-multiplied form of `x/d1 - y/d2 < z/d3` over `ℚ`. -/
theorem div_sub_div_lt_div_iff_int (x y z : Int) (d1 d2 d3 : Nat)
    (h1 : 0 < d1) (h2 : 0 < d2) (h3 : 0 < d3) :
    ((x : ℚ) / (d1 : ℚ) - (y : ℚ) / (d2 : ℚ) < (z : ℚ) / (d3 : ℚ)) ↔
      (x * (d2 : Int) - y * (d1 : Int)) * (d3 : Int) < z * ((d1 : Int) * (d2 : Int)) := by
  have h1q : (0 : ℚ) < (d1 : ℚ) := by exact_mod_cast h1
  have h2q : (0 : ℚ) < (d2 : ℚ) := by exact_mod_cast h2
  have h3q : (0 : ℚ) < (d3 : ℚ) := by exact_mod_cast h3
  rw [div_sub_div _ _ h1q.ne' h2q.ne', div_lt_div_iff₀ (by positivity) h3q]
  rw [show ((x : ℚ) * d2 - (d1 : ℚ) * y) * d3 =
        (((x * (d2 : Int) - y * (d1 : Int)) * (d3 : Int) : Int) : ℚ) by push_cast; ring]
  rw [show (z : ℚ) * ((d1 : ℚ) * d2) = ((z * ((d1 : Int) * (d2 : Int)) : Int) : ℚ) by
        push_cast; ring]
  exact_mod_cast Iff.rfl

/-- The cooldown gate `subLt` is exactly
`current_time - last_alert_time < alert_cooldown` over `ℚ`. -/
theorem subLt_iff (now last cooldown : ℚ) :
    subLt now last cooldown ↔ now - last < cooldown := by
  have h := div_sub_div_lt_div_iff_int now.num last.num cooldown.num
    now.den last.den cooldown.den now.den_pos last.den_pos cooldown.den_pos
  unfold subLt
  rw [← h, Rat.num_div_den, Rat.num_div_den, Rat.num_div_den]

/-- Cross-multiplied form of `s < (n/d) * (n/d)` over `ℚ`. -/
theorem lt_div_mul_div_iff_int (s n : Int) (d : Nat) (hd : 0 < d) :
    ((s : ℚ) < ((n : ℚ) / (d : ℚ)) * ((n : ℚ) / (d : ℚ))) ↔
      s * (d : Int) * (d : Int) < n * n := by
  have hdq : (0 : ℚ) < (d : ℚ) := by exact_mod_cast hd
  rw [div_mul_div_comm, lt_div_iff₀ (by positivity)]
  rw [show (s : ℚ) * ((d : ℚ) * d) = ((s * (d : Int) * (d : Int) : Int) : ℚ) by
        push_cast; ring]
  rw [show (n : ℚ) * n = ((n * n : Int) : ℚ) by push_cast; ring]
  exact_mod_cast Iff.rfl

/-- The first acceptance test of the matching loop is exactly
`0 < thr ∧ s < thr * thr` over `ℚ`. -/
theorem acceptsFirst_iff (thr : ℚ) (s : Int) :
    acceptsFirst thr s ↔ 0 < thr ∧ (s : ℚ) < thr * thr := by
  unfold acceptsFirst
  refine and_congr Rat.num_pos ?_
  rw [← lt_div_mul_div_iff_int s thr.num thr.den thr.den_pos, Rat.num_div_den]

/-- The first acceptance test is exactly the source's float comparison
`sqrt s < thr` read over the exact reals. -/
theorem sqrt_lt_iff_acceptsFirst (thr : ℚ) (s : Int) :
    Real.sqrt ((s : Int) : ℝ) < ((thr : ℚ) : ℝ) ↔ acceptsFirst thr s := by
  rw [acceptsFirst_iff]
  constructor
  · intro h
    have hthr : (0 : ℝ) < ((thr : ℚ) : ℝ) := lt_of_le_of_lt (Real.sqrt_nonneg _) h
    have h2 := (Real.sqrt_lt' hthr).mp h
    rw [pow_two] at h2
    exact ⟨by exact_mod_cast hthr, by exact_mod_cast h2⟩
  · rintro ⟨h0, h1⟩
    have hthr : (0 : ℝ) < ((thr : ℚ) : ℝ) := by exact_mod_cast h0
    rw [Real.sqrt_lt' hthr, pow_two]
    exact_mod_cast h1

/-! Characterization of the nearest-neighbor scan `bestMatchAux`. -/

theorem bestMatchAux_cons_none (c : Int × Int) (thr : ℚ) (d : Detection)
    (rest : List Detection) (best : Option Detection) :
    bestMatchAux c thr (d :: rest) best none =
      if acceptsFirst thr (sqDist c d.center) then
        bestMatchAux c thr rest (some d) (some (sqDist c d.center))
      else
        bestMatchAux c thr rest best none := rfl

theorem bestMatchAux_cons_some (c : Int × Int) (thr : ℚ) (d : Detection)
    (rest : List Detection) (best : Option Detection) (b : Int) :
    bestMatchAux c thr (d :: rest) best (some b) =
      if sqDist c d.center < b then
        bestMatchAux c thr rest (some d) (some (sqDist c d.center))
      else
        bestMatchAux c thr rest best (some b) := rfl

theorem bestMatchAux_none_spec (c : Int × Int) (thr : ℚ) (ds : List Detection) :
    ∀ (best : Option Detection) (bs : Option Int),
      BMInv thr c best bs →
      (bestMatchAux c thr ds best bs).1 = none →
      best = none ∧ ∀ x ∈ ds, ¬ acceptsFirst thr (sqDist c x.center) := by
  induction ds with
  | nil =>
    intro best bs _ hres
    simp only [bestMatchAux] at hres
    exact ⟨hres, by simp⟩
  | cons d0 rest ih =>
    intro best bs hinv hres
    cases bs with
    | none =>
      cases best with
      | some d1 => simp only [BMInv] at hinv
      | none =>
        rw [bestMatchAux_cons_none] at hres
        by_cases hacc : acceptsFirst thr (sqDist c d0.center)
        · rw [if_pos hacc] at hres
          have h2 := ih (some d0) (some (sqDist c d0.center)) ⟨rfl, hacc⟩ hres
          simp at h2
        · rw [if_neg hacc] at hres
          have h2 := ih none none trivial hres
          refine ⟨rfl, ?_⟩
          intro x hx
          rcases List.mem_cons.mp hx with rfl | hx
          · exact hacc
          · exact h2.2 x hx
    | some b =>
      cases best with
      | none => simp only [BMInv] at hinv
      | some d1 =>
        rw [bestMatchAux_cons_some] at hres
        obtain ⟨hb, haccb⟩ := hinv
        by_cases hlt : sqDist c d0.center < b
        · rw [if_pos hlt] at hres
          have haccs : acceptsFirst thr (sqDist c d0.center) := by
            obtain ⟨hnum, hsq⟩ := haccb
            refine ⟨hnum, lt_trans ?_ hsq⟩
            have hden : (0 : Int) < (thr.den : Int) := by
              exact_mod_cast thr.den_pos
            exact mul_lt_mul_of_pos_right (mul_lt_mul_of_pos_right hlt hden) hden
          have h2 := ih (some d0) (some (sqDist c d0.center)) ⟨rfl, haccs⟩ hres
          simp at h2
        · rw [if_neg hlt] at hres
          have h2 := ih (some d1) (some b) ⟨hb, haccb⟩ hres
          simp at h2

theorem bestMatchAux_some_spec (c : Int × Int) (thr : ℚ) (ds : List Detection) :
    ∀ (best : Option Detection) (bs : Option Int),
      BMInv thr c best bs →
      ∀ d, (bestMatchAux c thr ds best bs).1 = some d →
        ((∃ pre post, ds = pre ++ d :: post ∧
            acceptsFirst thr (sqDist c d.center) ∧
            (∀ x ∈ pre, sqDist c d.center < sqDist c x.center) ∧
            (∀ x ∈ post, sqDist c d.center ≤ sqDist c x.center) ∧
            (∀ b, bs = some b → sqDist c d.center < b)) ∨
          (best = some d ∧ bs = some (sqDist c d.center) ∧
            (∀ x ∈ ds, sqDist c d.center ≤ sqDist c x.center))) := by
  induction ds with
  | nil =>
    intro best bs hinv d hres
    simp only [bestMatchAux] at hres
    subst hres
    right
    cases bs with
    | none => simp only [BMInv] at hinv
    | some b =>
      obtain ⟨hb, _⟩ := hinv
      exact ⟨rfl, by rw [hb], by simp⟩
  | cons d0 rest ih =>
    intro best bs hinv d hres
    cases bs with
    | none =>
      cases best with
      | some d1 => simp only [BMInv] at hinv
      | none =>
        rw [bestMatchAux_cons_none] at hres
        by_cases hacc : acceptsFirst thr (sqDist c d0.center)
        · rw [if_pos hacc] at hres
          have h2 := ih (some d0) (some (sqDist c d0.center)) ⟨rfl, hacc⟩ d hres
          rcases h2 with ⟨pre, post, heq, haccd, hpre, hpost, hbs⟩ |
            ⟨hbest, hbseq, hall⟩
          · left
            refine ⟨d0 :: pre, post, by rw [heq]; rfl, haccd, ?_, hpost, by simp⟩
            intro x hx
            rcases List.mem_cons.mp hx with rfl | hx
            · exact hbs (sqDist c x.center) rfl
            · exact hpre x hx
          · left
            obtain rfl : d0 = d := Option.some.inj hbest
            refine ⟨[], rest, rfl, hacc, by simp, hall, by simp⟩
        · rw [if_neg hacc] at hres
          have h2 := ih none none trivial d hres
          rcases h2 with ⟨pre, post, heq, haccd, hpre, hpost, _⟩ |
            ⟨hbest, _, _⟩
          · left
            refine ⟨d0 :: pre, post, by rw [heq]; rfl, haccd, ?_, hpost, by simp⟩
            intro x hx
            rcases List.mem_cons.mp hx with rfl | hx
            · -- the rejected head is no closer than the accepted result
              obtain ⟨hnum, hsq⟩ := haccd
              by_contra hle
              push_neg at hle
              refine hacc ⟨hnum, lt_of_le_of_lt ?_ hsq⟩
              have hden : (0 : Int) ≤ (thr.den : Int) := by positivity
              exact mul_le_mul_of_nonneg_right
                (mul_le_mul_of_nonneg_right hle hden) hden
            · exact hpre x hx
          · simp at hbest
    | some b =>
      cases best with
      | none => simp only [BMInv] at hinv
      | some d1 =>
        rw [bestMatchAux_cons_some] at hres
        obtain ⟨hb, haccb⟩ := hinv
        by_cases hlt : sqDist c d0.center < b
        · rw [if_pos hlt] at hres
          have haccs : acceptsFirst thr (sqDist c d0.center) := by
            obtain ⟨hnum, hsq⟩ := haccb
            refine ⟨hnum, lt_trans ?_ hsq⟩
            have hden : (0 : Int) < (thr.den : Int) := by
              exact_mod_cast thr.den_pos
            exact mul_lt_mul_of_pos_right (mul_lt_mul_of_pos_right hlt hden) hden
          have h2 := ih (some d0) (some (sqDist c d0.center)) ⟨rfl, haccs⟩ d hres
          rcases h2 with ⟨pre, post, heq, haccd, hpre, hpost, hbs⟩ |
            ⟨hbest, hbseq, hall⟩
          · left
            refine ⟨d0 :: pre, post, by rw [heq]; rfl, haccd, ?_, hpost, ?_⟩
            · intro x hx
              rcases List.mem_cons.mp hx with rfl | hx
              · exact hbs (sqDist c x.center) rfl
              · exact hpre x hx
            · intro b0 hb0
              obtain rfl : b = b0 := Option.some.inj hb0
              exact lt_trans (hbs (sqDist c d0.center) rfl) hlt
          · left
            obtain rfl : d0 = d := Option.some.inj hbest
            refine ⟨[], rest, rfl, haccs, by simp, hall, ?_⟩
            intro b0 hb0
            obtain rfl : b = b0 := Option.some.inj hb0
            exact hlt
        · rw [if_neg hlt] at hres
          have h2 := ih (some d1) (some b) ⟨hb, haccb⟩ d hres
          push_neg at hlt
          rcases h2 with ⟨pre, post, heq, haccd, hpre, hpost, hbs⟩ |
            ⟨hbest, hbseq, hall⟩
          · left
            refine ⟨d0 :: pre, post, by rw [heq]; rfl, haccd, ?_, hpost, hbs⟩
            intro x hx
            rcases List.mem_cons.mp hx with rfl | hx
            · exact lt_of_lt_of_le (hbs b rfl) hlt
            · exact hpre x hx
          · right
            refine ⟨hbest, hbseq, ?_⟩
            intro x hx
            rcases List.mem_cons.mp hx with rfl | hx
            · have hbd : b = sqDist c d.center := Option.some.inj hbseq
              rw [← hbd]
              exact hlt
            · exact hall x hx

theorem findBestMatch_some_split (thr : ℚ) (track : Track) (ds : List Detection)
    (last : Detection) (hlast : track.latest_detection = some last)
    (d : Detection) (hres : findBestMatch thr track ds = some d) :
    ∃ pre post, ds = pre ++ d :: post ∧
      acceptsFirst thr (sqDist last.center d.center) ∧
      (∀ x ∈ pre, sqDist last.center d.center < sqDist last.center x.center) ∧
      (∀ x ∈ post, sqDist last.center d.center ≤ sqDist last.center x.center) := by
  unfold findBestMatch at hres
  rw [hlast] at hres
  have h := bestMatchAux_some_spec last.center thr ds none none trivial d hres
  rcases h with ⟨pre, post, h1, h2, h3, h4, _⟩ | ⟨h, _⟩
  · exact ⟨pre, post, h1, h2, h3, h4⟩
  · simp at h

theorem findBestMatch_none_all (thr : ℚ) (track : Track) (ds : List Detection)
    (last : Detection) (hlast : track.latest_detection = some last)
    (hres : findBestMatch thr track ds = none) :
    ∀ x ∈ ds, ¬ acceptsFirst thr (sqDist last.center x.center) := by
  unfold findBestMatch at hres
  rw [hlast] at hres
  exact (bestMatchAux_none_spec last.center thr ds none none trivial hres).2

theorem findBestMatch_mem_min (thr : ℚ) (track : Track) (ds : List Detection)
    (last : Detection) (hlast : track.latest_detection = some last)
    (d : Detection) (hres : findBestMatch thr track ds = some d) :
    d ∈ ds ∧ acceptsFirst thr (sqDist last.center d.center) ∧
      ∀ x ∈ ds, sqDist last.center d.center ≤ sqDist last.center x.center := by
  obtain ⟨pre, post, heq, hacc, hpre, hpost⟩ :=
    findBestMatch_some_split thr track ds last hlast d hres
  subst heq
  refine ⟨by simp, hacc, ?_⟩
  intro x hx
  rcases List.mem_append.mp hx with hx | hx
  · exact le_of_lt (hpre x hx)
  · rcases List.mem_cons.mp hx with rfl | hx
    · exact le_refl _
    · exact hpost x hx

/-! Structural lemmas about the matching and creation loops. -/

theorem expireCheck_track_id (a f : Nat) (t : Track) :
    (expireCheck a f t).track_id = t.track_id := by
  unfold expireCheck; split <;> rfl

theorem expireCheck_alert_sent (a f : Nat) (t : Track) :
    (expireCheck a f t).alert_sent = t.alert_sent := by
  unfold expireCheck; split <;> rfl

theorem expireCheck_detections (a f : Nat) (t : Track) :
    (expireCheck a f t).detections = t.detections := by
  unfold expireCheck; split <;> rfl

theorem expireCheck_inactive (a f : Nat) (t : Track)
    (h : t.is_active = false) : (expireCheck a f t).is_active = false := by
  unfold expireCheck; split
  · rfl
  · exact h

theorem matchLoop_map_track_id (thr : ℚ) (a f : Nat) (ts : List Track) :
    ∀ u, (matchLoop thr a f ts u).1.map Track.track_id = ts.map Track.track_id := by
  induction ts with
  | nil => intro u; rfl
  | cons t rest ih =>
    intro u
    simp only [matchLoop]
    by_cases hskip : (!t.is_active || t.detections.isEmpty) = true
    · rw [if_pos hskip]
      simp [ih]
    · rw [if_neg hskip]
      cases hmatch : findBestMatch thr t u with
      | some d => simp [ih]
      | none => simp [ih, expireCheck_track_id]

theorem matchLoop_length (thr : ℚ) (a f : Nat) (ts : List Track) (u : List Detection) :
    (matchLoop thr a f ts u).1.length = ts.length := by
  have h := matchLoop_map_track_id thr a f ts u
  have := congrArg List.length h
  simpa using this

/-- Per-track relation established by one pass of the matching loop:
ids are preserved, `alert_sent` is untouched, and `is_active` can only
move from `true` to `false`. -/
theorem matchLoop_flags (thr : ℚ) (a f : Nat) (ts : List Track) :
    ∀ u, List.Forall₂ (fun t t' =>
        t'.track_id = t.track_id ∧
        (t.is_active = false → t'.is_active = false) ∧
        t'.alert_sent = t.alert_sent)
      ts (matchLoop thr a f ts u).1 := by
  induction ts with
  | nil => intro u; exact List.Forall₂.nil
  | cons t rest ih =>
    intro u
    simp only [matchLoop]
    by_cases hskip : (!t.is_active || t.detections.isEmpty) = true
    · rw [if_pos hskip]
      exact List.Forall₂.cons ⟨rfl, fun h => h, rfl⟩ (ih u)
    · rw [if_neg hskip]
      cases hmatch : findBestMatch thr t u with
      | some d =>
        exact List.Forall₂.cons ⟨rfl, fun h => h, rfl⟩ (ih (u.erase d))
      | none =>
        exact List.Forall₂.cons
          ⟨expireCheck_track_id a f t, fun h => expireCheck_inactive a f t h,
            expireCheck_alert_sent a f t⟩ (ih u)

/-- Head behaviour of the matching loop for an active, non-empty track
with no qualifying candidate: the expiry check is applied. -/
theorem matchLoop_head_expire (thr : ℚ) (a f : Nat) (t : Track)
    (rest : List Track) (u : List Detection)
    (hactive : t.is_active = true) (hne : t.detections ≠ [])
    (hnone : findBestMatch thr t u = none) :
    (matchLoop thr a f (t :: rest) u).1.head? =
      some (expireCheck a f t) := by
  simp only [matchLoop]
  have hskip : (!t.is_active || t.detections.isEmpty) = false := by
    rw [hactive]
    simp [List.isEmpty_iff, hne]
  rw [if_neg (by rw [hskip]; simp)]
  rw [hnone]
  rfl

theorem createTracks_next (nid : Nat) (ds : List Detection) :
    (createTracks nid ds).2 = nid + ds.length := by
  induction ds generalizing nid with
  | nil => simp [createTracks]
  | cons d rest ih => simp [createTracks, ih]; omega

theorem createTracks_get (nid : Nat) (ds : List Detection) :
    ∀ (i : Nat), (createTracks nid ds).1[i]? =
      (ds[i]?).map (fun d =>
        ({ track_id := nid + i, detections := [d], last_seen := d.timestamp } : Track)) := by
  induction ds generalizing nid with
  | nil => intro i; simp [createTracks]
  | cons d rest ih =>
    intro i
    cases i with
    | zero => simp [createTracks]
    | succ j =>
      simp only [createTracks, List.getElem?_cons_succ]
      rw [ih (nid + 1) j]
      have : nid + 1 + j = nid + (j + 1) := by omega
      rw [this]

theorem createTracks_map_track_id (nid : Nat) (ds : List Detection) :
    (createTracks nid ds).1.map Track.track_id = List.range' nid ds.length := by
  induction ds generalizing nid with
  | nil => simp [createTracks]
  | cons d rest ih => simp [createTracks, List.range'_succ, ih]

/-- Structure of `Tracker.update` outside the empty fast path. -/
theorem update_tracks_eq (tr : Tracker) (ds : List Detection) (fid : Nat)
    (h : ¬ (ds.isEmpty = true ∧ tr.tracks.isEmpty = true)) :
    (tr.update ds fid).2.tracks =
      (matchLoop tr.distance_threshold tr.max_age fid tr.tracks ds).1 ++
        (createTracks tr.next_track_id
          (matchLoop tr.distance_threshold tr.max_age fid tr.tracks ds).2).1 ∧
    (tr.update ds fid).2.next_track_id =
      tr.next_track_id +
        (matchLoop tr.distance_threshold tr.max_age fid tr.tracks ds).2.length := by
  unfold Tracker.update
  rw [if_neg (by simpa using h)]
  exact ⟨rfl, createTracks_next _ _⟩

/-! Behaviour of the alert dispatch pass. -/

theorem dispatchToHandlers_idx (handlers : List Handler) (t : Track) :
    (dispatchToHandlers handlers t).map AlertEvent.handler_idx =
      List.range handlers.length := by
  unfold dispatchToHandlers
  rw [List.map_map]
  have : (AlertEvent.handler_idx ∘ fun p : Nat × Handler =>
      ({ track_id := t.track_id, handler_idx := p.1,
         ok := match p.2 t with
               | Except.ok _ => true
               | Except.error _ => false } : AlertEvent)) = Prod.fst := by
    funext p
    rfl
  rw [this]
  exact List.enum_map_fst handlers

theorem dispatchToHandlers_length (handlers : List Handler) (t : Track) :
    (dispatchToHandlers handlers t).length = handlers.length := by
  have h := congrArg List.length (dispatchToHandlers_idx handlers t)
  simpa using h

/-- Full characterization of the track loop of `_check_alerts`: every
qualifying track is marked sent and dispatched, in map order. -/
theorem alertLoop_spec (handlers : List Handler) (now : ℚ) (ts : List Track) :
    ∀ la, (alertLoop handlers now ts la).1 =
        ts.map (fun t =>
          if t.alert_sent = false ∧ 0 < t.length then
            { t with alert_sent := true }
          else t) ∧
      (alertLoop handlers now ts la).2.2 =
        (ts.map (fun t =>
          if t.alert_sent = false ∧ 0 < t.length then
            dispatchToHandlers handlers t
          else [])).flatten := by
  induction ts with
  | nil => intro la; exact ⟨rfl, rfl⟩
  | cons t rest ih =>
    intro la
    by_cases hq : t.alert_sent = false ∧ 0 < t.length
    · simp only [alertLoop, if_pos hq, List.map_cons, List.flatten_cons]
      exact ⟨by rw [(ih now).1]; rfl, by rw [(ih now).2]; rfl⟩
    · simp only [alertLoop, if_neg hq, List.map_cons, List.flatten_cons]
      exact ⟨by rw [(ih la).1], by rw [(ih la).2]; simp⟩

theorem forall₂_map_self {α : Type} (f : α → α) (r : α → α → Prop)
    (h : ∀ a, r a (f a)) : ∀ l : List α, List.Forall₂ r l (l.map f)
  | [] => List.Forall₂.nil
  | a :: l => List.Forall₂.cons (h a) (forall₂_map_self f r h l)

/-- Per-track relation established by one `_check_alerts` pass: the id,
the detections and `is_active` are untouched, and `alert_sent` can only
move from `false` to `true`. -/
theorem checkAlerts_flags (cooldown : ℚ) (handlers : List Handler)
    (now la : ℚ) (ts : List Track) :
    List.Forall₂ (fun t t' =>
        t'.track_id = t.track_id ∧ t'.is_active = t.is_active ∧
        t'.detections = t.detections ∧
        (t.alert_sent = true → t'.alert_sent = true))
      ts (checkAlerts cooldown handlers now la ts).1 := by
  unfold checkAlerts
  by_cases hgate : subLt now la cooldown
  · rw [if_pos hgate]
    exact List.forall₂_same.mpr (fun a _ => ⟨rfl, rfl, rfl, fun h => h⟩)
  · rw [if_neg hgate]
    rw [(alertLoop_spec handlers now ts la).1]
    apply forall₂_map_self
    intro a
    by_cases hq : a.alert_sent = false ∧ 0 < a.length
    · rw [if_pos hq]
      exact ⟨rfl, rfl, rfl, fun _ => rfl⟩
    · rw [if_neg hq]
      exact ⟨rfl, rfl, rfl, fun h => h⟩

/-! Track-id bookkeeping across `Tracker.update`. -/

theorem update_id_spec (tr : Tracker) (ds : List Detection) (fid : Nat) :
    (tr.update ds fid).2.tracks.map Track.track_id =
      tr.tracks.map Track.track_id ++
        List.range' tr.next_track_id
          ((tr.update ds fid).2.next_track_id - tr.next_track_id) ∧
    tr.next_track_id ≤ (tr.update ds fid).2.next_track_id := by
  by_cases hfast : ds.isEmpty = true ∧ tr.tracks.isEmpty = true
  · unfold Tracker.update
    rw [if_pos (by rw [hfast.1, hfast.2]; rfl)]
    simp
  · obtain ⟨h1, h2⟩ := update_tracks_eq tr ds fid hfast
    rw [h1, h2]
    refine ⟨?_, by omega⟩
    rw [List.map_append, matchLoop_map_track_id, createTracks_map_track_id]
    have : tr.next_track_id +
        (matchLoop tr.distance_threshold tr.max_age fid tr.tracks ds).2.length -
        tr.next_track_id =
        (matchLoop tr.distance_threshold tr.max_age fid tr.tracks ds).2.length := by
      omega
    rw [this]

theorem TrackerIdInv_update (tr : Tracker) (ds : List Detection) (fid : Nat)
    (h : TrackerIdInv tr) : TrackerIdInv (tr.update ds fid).2 := by
  obtain ⟨hpair, hbound⟩ := h
  obtain ⟨hmap, hle⟩ := update_id_spec tr ds fid
  constructor
  · rw [hmap]
    apply List.pairwise_append.mpr
    refine ⟨hpair, List.pairwise_lt_range' _ _, ?_⟩
    intro a ha b hb
    obtain ⟨t, ht, rfl⟩ := List.mem_map.mp ha
    have h1 := hbound t ht
    have h2 := (List.mem_range'_1.mp hb).1
    omega
  · intro t ht
    have hmem : t.track_id ∈ (tr.update ds fid).2.tracks.map Track.track_id :=
      List.mem_map_of_mem _ ht
    rw [hmap] at hmem
    rcases List.mem_append.mp hmem with hm | hm
    · obtain ⟨t0, ht0, heq⟩ := List.mem_map.mp hm
      have := hbound t0 ht0
      omega
    · have := (List.mem_range'_1.mp hm).2
      omega

/-- Per-track flag relation established by one `Tracker.update` call on
the pre-existing tracks (position-wise; newly created tracks are
appended after them). -/
theorem update_flags (tr : Tracker) (ds : List Detection) (fid : Nat) :
    List.Forall₂ (fun t t' =>
        t'.track_id = t.track_id ∧
        (t.is_active = false → t'.is_active = false) ∧
        t'.alert_sent = t.alert_sent)
      tr.tracks ((tr.update ds fid).2.tracks.take tr.tracks.length) := by
  by_cases hfast : ds.isEmpty = true ∧ tr.tracks.isEmpty = true
  · unfold Tracker.update
    rw [if_pos (by rw [hfast.1, hfast.2]; rfl)]
    rw [List.take_length]
    exact List.forall₂_same.mpr (fun a _ => ⟨rfl, fun h => h, rfl⟩)
  · rw [(update_tracks_eq tr ds fid hfast).1]
    rw [List.take_append_of_le_length
      (le_of_eq (matchLoop_length tr.distance_threshold tr.max_age fid tr.tracks ds).symm)]
    rw [← matchLoop_length tr.distance_threshold tr.max_age fid tr.tracks ds,
      List.take_length]
    exact matchLoop_flags tr.distance_threshold tr.max_age fid tr.tracks ds

/-! Round-trip of the persisted session document. -/

theorem asCount_natCast (n : Nat) : Json.asCount (Json.num (n : ℚ)) = some n := by
  show (if ((n : ℚ)).den = 1 ∧ 0 ≤ ((n : ℚ)).num then some ((n : ℚ)).num.toNat else none) =
    some n
  rw [if_pos ⟨Rat.den_natCast n, by simp⟩]
  simp

theorem parse_total_frames_eq (session_ts frame_count : Nat)
    (hist : List Detection) (tks : List Track) :
    parseTotalFrames (sessionSummary session_ts frame_count hist tks) =
      some frame_count := by
  simp [parseTotalFrames, sessionSummary, Json.getField, List.lookup,
    asCount_natCast]

theorem parse_total_detections_eq (session_ts frame_count : Nat)
    (hist : List Detection) (tks : List Track) :
    parseTotalDetections (sessionSummary session_ts frame_count hist tks) =
      some hist.length := by
  simp [parseTotalDetections, sessionSummary, Json.getField, List.lookup,
    asCount_natCast]

theorem collectCounts_to_dict (tks : List Track) :
    collectCounts (tks.map Track.to_dict) = some (tks.map Track.length) := by
  induction tks with
  | nil => rfl
  | cons t rest ih =>
    simp only [List.map_cons, collectCounts]
    rw [ih]
    have hfield : ((Track.to_dict t).getField "detection_count").bind Json.asCount =
        some t.length := by
      simp [Track.to_dict, Json.getField, List.lookup, asCount_natCast]
    rw [hfield]

theorem parse_detection_counts_eq (session_ts frame_count : Nat)
    (hist : List Detection) (tks : List Track) :
    parseDetectionCounts (sessionSummary session_ts frame_count hist tks) =
      some (tks.map Track.length) := by
  simp only [parseDetectionCounts, sessionSummary, Json.getField, List.lookup]
  simp [collectCounts_to_dict]

/-! Claim theorems. -/

/-- C1 (counterexample): with `alert_cooldown = 5`, `last_alert_time = 0`
and `current_time = 10` (cooldown elapsed), two distinct qualifying
tracks are passed to `_check_alerts`; the claim says only the first (in
map order) fires and the second stays `alert_sent = false`, but the code
fires both (the handler trace contains events for track ids 0 and 1) and
marks both `alert_sent = true`. -/
theorem C1_counterexample :
    ¬ subLt 10 0 5 ∧
    tAlert0.alert_sent = false ∧ tAlert1.alert_sent = false ∧
    0 < tAlert0.length ∧ 0 < tAlert1.length ∧
    tAlert0.track_id ≠ tAlert1.track_id ∧
    (checkAlerts 5 [okHandler] 10 0 [tAlert0, tAlert1]).1.map Track.alert_sent =
      [true, true] ∧
    (checkAlerts 5 [okHandler] 10 0 [tAlert0, tAlert1]).2.2.map AlertEvent.track_id =
      [0, 1] := by
  decide

/-- C1 (amended): the cooldown gate is checked once, at the start of the
`_check_alerts` pass.  If `current_time - last_alert_time <
alert_cooldown` the pass is a no-op.  Otherwise every qualifying track
(`alert_sent = false` and at least one detection) fires, in map order,
and each of them is marked `alert_sent = true` in that same pass — not
only the first; the handler trace is the concatenation of the per-track
dispatches in map order. -/
theorem C1_cooldown_pass :
    (∀ (cooldown : ℚ) (handlers : List Handler) (now la : ℚ) (ts : List Track),
        subLt now la cooldown →
        checkAlerts cooldown handlers now la ts = (ts, la, [])) ∧
    (∀ (cooldown : ℚ) (handlers : List Handler) (now la : ℚ) (ts : List Track),
        ¬ subLt now la cooldown →
        (checkAlerts cooldown handlers now la ts).1 =
          ts.map (fun t =>
            if t.alert_sent = false ∧ 0 < t.length then
              { t with alert_sent := true }
            else t) ∧
        (checkAlerts cooldown handlers now la ts).2.2 =
          (ts.map (fun t =>
            if t.alert_sent = false ∧ 0 < t.length then
              dispatchToHandlers handlers t
            else [])).flatten) := by
  constructor
  · intro cd hs now la ts h
    unfold checkAlerts
    rw [if_pos h]
  · intro cd hs now la ts h
    unfold checkAlerts
    rw [if_neg h]
    exact alertLoop_spec hs now ts la

/-- C1 (witness): the amended statement evaluated on concrete inputs:
a blocked pass is a no-op, and an open pass marks both qualifying
tracks. -/
theorem C1_cooldown_pass_witness :
    subLt 3 0 5 ∧
    checkAlerts 5 [okHandler] 3 0 [tAlert0, tAlert1] = ([tAlert0, tAlert1], 0, []) ∧
    ¬ subLt 10 0 5 ∧
    (checkAlerts 5 [okHandler] 10 0 [tAlert0, tAlert1]).1 =
      [{ tAlert0 with alert_sent := true }, { tAlert1 with alert_sent := true }] :=
  ⟨by decide,
   C1_cooldown_pass.1 5 [okHandler] 3 0 [tAlert0, tAlert1] (by decide),
   by decide,
   ((C1_cooldown_pass.2 5 [okHandler] 10 0 [tAlert0, tAlert1] (by decide)).1).trans
     (by decide)⟩

/-- C2: each handler invocation in `_check_alerts` sits inside its own
try/except, so a failing handler (modelled as `Except.error`) never
aborts the loop: the invocation trace covers every registered handler
index in registration order, and the track is marked
`alert_sent = true` after the attempt, regardless of how many handlers
failed.  No failure escapes `fireAlert`, whose result is total. -/
theorem C2_handler_failure_isolation (handlers : List Handler) (t : Track)
    (i : Nat) (hi : i < handlers.length) (e : String)
    (hfail : handlers.get ⟨i, hi⟩ t = Except.error e) :
    (fireAlert handlers t).1.alert_sent = true ∧
    (fireAlert handlers t).2.map AlertEvent.handler_idx =
      List.range handlers.length ∧
    (fireAlert handlers t).2.length = handlers.length :=
  ⟨rfl, dispatchToHandlers_idx handlers t, dispatchToHandlers_length handlers t⟩

/-- C2 (witness): a concrete dispatch where the first handler fails and
the second still runs; the track ends up marked sent. -/
theorem C2_handler_failure_isolation_witness :
    [failHandler, okHandler].get ⟨0, by decide⟩ tAlert0 =
      Except.error "io unavailable" ∧
    (fireAlert [failHandler, okHandler] tAlert0).1.alert_sent = true ∧
    (fireAlert [failHandler, okHandler] tAlert0).2.map AlertEvent.handler_idx =
      List.range 2 ∧
    (fireAlert [failHandler, okHandler] tAlert0).2.length = 2 :=
  ⟨rfl,
   (C2_handler_failure_isolation [failHandler, okHandler] tAlert0 0 (by decide)
     "io unavailable" rfl).1,
   (C2_handler_failure_isolation [failHandler, okHandler] tAlert0 0 (by decide)
     "io unavailable" rfl).2.1,
   (C2_handler_failure_isolation [failHandler, okHandler] tAlert0 0 (by decide)
     "io unavailable" rfl).2.2⟩

/-- C3: an active track with at least one detection that receives no
match is deactivated exactly when `frame_id - latest.frame_id >
max_age` (first conjunct: the expiry test; second conjunct: the
matching loop applies exactly that test to such a track); concretely, a
track last updated at frame 1 with `max_age = 3` is deactivated by
`update([], frame_id=10)`, and both the returned list and
`active_tracks` exclude it afterwards. -/
theorem C3_expiry_policy :
    (∀ (max_age frame_id : Nat) (t : Track) (ld : Detection),
        t.is_active = true → t.detections.getLast? = some ld →
        ((expireCheck max_age frame_id t).is_active = false ↔
          (frame_id : Int) - (ld.frame_id : Int) > (max_age : Int))) ∧
    (∀ (thr : ℚ) (max_age frame_id : Nat) (t : Track) (rest : List Track)
        (u : List Detection),
        t.is_active = true → t.detections ≠ [] →
        findBestMatch thr t u = none →
        (matchLoop thr max_age frame_id (t :: rest) u).1.head? =
          some (expireCheck max_age frame_id t)) ∧
    ((((mkTracker 50 3).update [dA] 1).2.update [] 10).1 = [] ∧
      (((mkTracker 50 3).update [dA] 1).2.update [] 10).2.active_tracks = [] ∧
      (((mkTracker 50 3).update [dA] 1).2.update [] 10).2.tracks.map Track.is_active =
        [false]) := by
  refine ⟨?_, matchLoop_head_expire, by decide⟩
  intro a f t ld hact hlast
  have hlf : lastFrameOf t = ld.frame_id := by
    unfold lastFrameOf Track.latest_detection
    rw [hlast]
  unfold expireCheck
  rw [hlf]
  by_cases hc : (f : Int) - (ld.frame_id : Int) > (a : Int)
  · rw [if_pos hc]
    simp [hc]
  · rw [if_neg hc]
    simp [hact, hc]

/-- C3 (witness): the expiry test and the loop behaviour evaluated on a
concrete stale track. -/
theorem C3_expiry_policy_witness :
    tAlert0.is_active = true ∧ tAlert0.detections.getLast? = some dA ∧
    (expireCheck 3 10 tAlert0).is_active = false ∧
    findBestMatch 50 tAlert0 [] = none ∧
    (matchLoop 50 3 10 [tAlert0] []).1.head? = some (expireCheck 3 10 tAlert0) :=
  ⟨rfl, rfl,
   (C3_expiry_policy.1 3 10 tAlert0 dA rfl rfl).mpr (by decide),
   rfl,
   C3_expiry_policy.2.1 50 3 10 tAlert0 [] [] rfl (by decide) rfl⟩

/-- C4: when `_find_best_match` returns a candidate, that candidate is
one of the unmatched detections, its Euclidean distance (over the exact
reals) to the track's latest detection center is strictly below
`distance_threshold` (so a detection at distance exactly the threshold
is never matched), and no unmatched detection is strictly closer; when
it returns none, no unmatched detection lies strictly within the
threshold.  Concretely, centers (125,125) at frame 1 and (135,130) at
frame 2 with threshold 50 end up in one track of length 2. -/
theorem C4_nearest_neighbor (thr : ℚ) (track : Track) (ds : List Detection)
    (last : Detection) (hlast : track.latest_detection = some last) :
    (∀ d, findBestMatch thr track ds = some d →
        d ∈ ds ∧
        Real.sqrt ((sqDist last.center d.center : Int) : ℝ) < ((thr : ℚ) : ℝ) ∧
        ∀ x ∈ ds, sqDist last.center d.center ≤ sqDist last.center x.center) ∧
    (findBestMatch thr track ds = none →
        ∀ x ∈ ds,
          ¬ Real.sqrt ((sqDist last.center x.center : Int) : ℝ) < ((thr : ℚ) : ℝ)) ∧
    ((((mkTracker 50 30).update [dA] 1).2.update [dB] 2).1.map Track.length = [2] ∧
      (((mkTracker 50 30).update [dA] 1).2.update [dB] 2).2.tracks.length = 1) := by
  refine ⟨?_, ?_, by decide⟩
  · intro d hres
    obtain ⟨hmem, hacc, hmin⟩ := findBestMatch_mem_min thr track ds last hlast d hres
    exact ⟨hmem, (sqrt_lt_iff_acceptsFirst thr _).mpr hacc, hmin⟩
  · intro hres x hx hsqrt
    exact findBestMatch_none_all thr track ds last hlast hres x hx
      ((sqrt_lt_iff_acceptsFirst thr _).mp hsqrt)

/-- C4 (witness): the matching conclusions evaluated on the concrete
association example. -/
theorem C4_nearest_neighbor_witness :
    tAlert0.latest_detection = some dA ∧
    findBestMatch 50 tAlert0 [dB] = some dB ∧
    (dB ∈ [dB] ∧
      Real.sqrt ((sqDist dA.center dB.center : Int) : ℝ) < ((50 : ℚ) : ℝ) ∧
      ∀ x ∈ [dB], sqDist dA.center dB.center ≤ sqDist dA.center x.center) :=
  ⟨rfl, by decide,
   (C4_nearest_neighbor 50 tAlert0 [dB] dA rfl).1 dB (by decide)⟩

/-- C5: every detection left unmatched after the matching loop spawns
exactly one new track seeded with exactly that detection, with fresh
consecutive ids starting at the current counter (first conjunct);
`Tracker.update` appends exactly those tracks after the existing ones
(second conjunct); and on an empty tracker a single detection yields
exactly one returned track with id 0 holding that detection (third
conjunct). -/
theorem C5_unmatched_create :
    (∀ (nid : Nat) (ds : List Detection) (i : Nat),
        (createTracks nid ds).1[i]? =
          (ds[i]?).map (fun d =>
            ({ track_id := nid + i, detections := [d],
               last_seen := d.timestamp } : Track)) ∧
        (createTracks nid ds).2 = nid + ds.length) ∧
    (∀ (tr : Tracker) (ds : List Detection) (fid : Nat),
        ¬ (ds.isEmpty = true ∧ tr.tracks.isEmpty = true) →
        (tr.update ds fid).2.tracks =
          (matchLoop tr.distance_threshold tr.max_age fid tr.tracks ds).1 ++
            (createTracks tr.next_track_id
              (matchLoop tr.distance_threshold tr.max_age fid tr.tracks ds).2).1) ∧
    (∀ (thr : ℚ) (age fid : Nat) (d : Detection),
        (mkTracker thr age).update [d] fid =
          ([{ track_id := 0, detections := [d], last_seen := d.timestamp }],
            { distance_threshold := thr, max_age := age,
              tracks := [{ track_id := 0, detections := [d],
                           last_seen := d.timestamp }],
              next_track_id := 1 })) :=
  ⟨fun nid ds i => ⟨createTracks_get nid ds i, createTracks_next nid ds⟩,
   fun tr ds fid h => (update_tracks_eq tr ds fid h).1,
   fun _ _ _ _ => rfl⟩

/-- C5 (witness): creation evaluated on concrete inputs, including the
non-fast-path hypothesis of the second conjunct. -/
theorem C5_unmatched_create_witness :
    (createTracks 4 [dA, dB]).1[1]? =
      some { track_id := 5, detections := [dB], last_seen := dB.timestamp } ∧
    ¬ (([dA] : List Detection).isEmpty = true ∧
        (mkTracker 50 30).tracks.isEmpty = true) ∧
    ((mkTracker 50 30).update [dA] 1).2.tracks =
      (matchLoop 50 30 1 [] [dA]).1 ++ (createTracks 0 (matchLoop 50 30 1 [] [dA]).2).1 ∧
    ((mkTracker 50 30).update [dA] 2).1 =
      [{ track_id := 0, detections := [dA], last_seen := dA.timestamp }] :=
  ⟨((C5_unmatched_create.1 4 [dA, dB] 1).1).trans (by decide),
   by decide,
   C5_unmatched_create.2.1 (mkTracker 50 30) [dA] 1 (by decide),
   congrArg Prod.fst (C5_unmatched_create.2.2 50 30 2 dA)⟩

/-- C6 (counterexample): `Tracker.reset` (cited by the claim) clears the
map and restarts the id counter at 0, so across the operation sequence
`update; reset; update` the id 0 is assigned twice, to two different
tracks (one holding `dA`, then one holding `dB`): an id, once assigned,
can be reused for a different track when a reset intervenes. -/
theorem C6_counterexample :
    (((mkTracker 50 30).update [dA] 1).2.tracks.map
        (fun t => (t.track_id, t.detections)) = [(0, [dA])]) ∧
    ((((mkTracker 50 30).update [dA] 1).2.reset.update [dB] 1).2.tracks.map
        (fun t => (t.track_id, t.detections)) = [(0, [dB])]) ∧
    dA ≠ dB := by
  decide

/-- C6 (amended): across every sequence of `Tracker.update` calls
(reset excluded — reset deliberately clears the map and restarts the
counter, allowing ids to be reassigned), track ids are unique keys in
strictly ascending map order, every id stays below the fresh-id
counter, the pre-existing id sequence is preserved as a prefix, and
newly assigned ids are exactly the next consecutive counter values —
hence an id is never reused for a different track. -/
theorem C6_amended_ids (tr : Tracker) (ds : List Detection) (fid : Nat)
    (h : TrackerIdInv tr) :
    TrackerIdInv (tr.update ds fid).2 ∧
    (tr.update ds fid).2.tracks.map Track.track_id =
      tr.tracks.map Track.track_id ++
        List.range' tr.next_track_id
          ((tr.update ds fid).2.next_track_id - tr.next_track_id) ∧
    tr.next_track_id ≤ (tr.update ds fid).2.next_track_id :=
  ⟨TrackerIdInv_update tr ds fid h, (update_id_spec tr ds fid).1,
   (update_id_spec tr ds fid).2⟩

/-- C6 (witness): the amended id discipline evaluated on a concrete
update from the empty tracker. -/
theorem C6_amended_ids_witness :
    TrackerIdInv (mkTracker 50 30) ∧
    ((mkTracker 50 30).update [dA, dT1] 1).2.tracks.map Track.track_id =
      [] ++ List.range' 0 (((mkTracker 50 30).update [dA, dT1] 1).2.next_track_id - 0) :=
  ⟨⟨List.Pairwise.nil, by simp [mkTracker]⟩,
   (C6_amended_ids (mkTracker 50 30) [dA, dT1] 1
     ⟨List.Pairwise.nil, by simp [mkTracker]⟩).2.1⟩

/-- C7: the lifecycle flags are one-way under both operations.  A
`Tracker.update` call preserves every pre-existing track's id and
`alert_sent`, and never reactivates an inactive track; an alert pass
preserves id, `is_active` and the detections, and never clears a set
`alert_sent` flag. -/
theorem C7_flag_monotonic :
    (∀ (tr : Tracker) (ds : List Detection) (fid : Nat),
        List.Forall₂ (fun t t' =>
            t'.track_id = t.track_id ∧
            (t.is_active = false → t'.is_active = false) ∧
            t'.alert_sent = t.alert_sent)
          tr.tracks ((tr.update ds fid).2.tracks.take tr.tracks.length)) ∧
    (∀ (cooldown : ℚ) (handlers : List Handler) (now la : ℚ) (ts : List Track),
        List.Forall₂ (fun t t' =>
            t'.track_id = t.track_id ∧ t'.is_active = t.is_active ∧
            t'.detections = t.detections ∧
            (t.alert_sent = true → t'.alert_sent = true))
          ts (checkAlerts cooldown handlers now la ts).1) :=
  ⟨update_flags, checkAlerts_flags⟩

/-- C7 (witness): the flag relations evaluated on concrete states. -/
theorem C7_flag_monotonic_witness :
    List.Forall₂ (fun t t' =>
        t'.track_id = t.track_id ∧
        (t.is_active = false → t'.is_active = false) ∧
        t'.alert_sent = t.alert_sent)
      [tAlert0] ((trOne.update [] 10).2.tracks.take 1) ∧
    List.Forall₂ (fun t t' =>
        t'.track_id = t.track_id ∧ t'.is_active = t.is_active ∧
        t'.detections = t.detections ∧
        (t.alert_sent = true → t'.alert_sent = true))
      [tAlert0, tAlert1] (checkAlerts 5 [okHandler] 10 0 [tAlert0, tAlert1]).1 :=
  ⟨C7_flag_monotonic.1 trOne [] 10,
   C7_flag_monotonic.2 5 [okHandler] 10 0 [tAlert0, tAlert1]⟩

/-- C8: the tracker embedding is a pure function of its inputs, so two
runs over the same frame sequence produce identical returned
active-track lists and identical final state; and in every reachable
state the track map's iteration order is strictly ascending track id —
the matching loop therefore visits tracks in a stable order (ascending
id, which is the map's insertion order). -/
theorem C8_deterministic_replay (thr : ℚ) (age : Nat)
    (inputs : List (List Detection × Nat)) :
    runUpdates (mkTracker thr age) inputs = runUpdates (mkTracker thr age) inputs ∧
    List.Pairwise (fun a b => a < b)
      ((runUpdates (mkTracker thr age) inputs).2.tracks.map Track.track_id) := by
  refine ⟨rfl, ?_⟩
  have h : ∀ (tr : Tracker), TrackerIdInv tr →
      TrackerIdInv (runUpdates tr inputs).2 := by
    induction inputs with
    | nil => intro tr h; exact h
    | cons p rest ih =>
      intro tr h
      obtain ⟨ds, fid⟩ := p
      exact ih _ (TrackerIdInv_update tr ds fid h)
  exact (h (mkTracker thr age) ⟨List.Pairwise.nil, by simp [mkTracker]⟩).1

/-- C8 (witness): the determinism and order conclusions evaluated on a
concrete two-frame session. -/
theorem C8_deterministic_replay_witness :
    runUpdates (mkTracker 50 3) [([dA], 1), ([dT1, dT2], 2)] =
      runUpdates (mkTracker 50 3) [([dA], 1), ([dT1, dT2], 2)] ∧
    List.Pairwise (fun a b => a < b)
      ((runUpdates (mkTracker 50 3) [([dA], 1), ([dT1, dT2], 2)]).2.tracks.map
        Track.track_id) :=
  C8_deterministic_replay 50 3 [([dA], 1), ([dT1, dT2], 2)]

/-- C9: building the persisted session document and parsing it back
reproduces `total_frames`, `total_detections`, and every track's
`detection_count` exactly (the `json.dumps`/`json.loads` text codec is
the identity on such documents). -/
theorem C9_summary_roundtrip (session_ts frame_count : Nat)
    (hist : List Detection) (tks : List Track) :
    parseTotalFrames (sessionSummary session_ts frame_count hist tks) =
      some frame_count ∧
    parseTotalDetections (sessionSummary session_ts frame_count hist tks) =
      some hist.length ∧
    parseDetectionCounts (sessionSummary session_ts frame_count hist tks) =
      some (tks.map Track.length) :=
  ⟨parse_total_frames_eq session_ts frame_count hist tks,
   parse_total_detections_eq session_ts frame_count hist tks,
   parse_detection_counts_eq session_ts frame_count hist tks⟩

/-- C9 (witness): the round-trip evaluated on a concrete summary. -/
theorem C9_summary_roundtrip_witness :
    parseTotalFrames (sessionSummary 7 2 [dA, dB] [tAlert0, tAlert1]) = some 2 ∧
    parseTotalDetections (sessionSummary 7 2 [dA, dB] [tAlert0, tAlert1]) = some 2 ∧
    parseDetectionCounts (sessionSummary 7 2 [dA, dB] [tAlert0, tAlert1]) =
      some [1, 1] :=
  C9_summary_roundtrip 7 2 [dA, dB] [tAlert0, tAlert1]

/-- C10: the best-candidate comparison of `_find_best_match` is strict
(`distance < best_distance`), so a later detection replaces the current
best only when strictly closer; among several unmatched detections at
the same minimal distance (strictly below the threshold), the one
appearing earliest in the input sequence is the one matched. -/
theorem C10_tie_break_earliest (thr : ℚ) (track : Track) (ds : List Detection)
    (last : Detection) (hlast : track.latest_detection = some last)
    (i : Nat) (di : Detection) (hdi : ds[i]? = some di)
    (hacc : acceptsFirst thr (sqDist last.center di.center))
    (hmin : ∀ x ∈ ds, sqDist last.center di.center ≤ sqDist last.center x.center)
    (hfirst : ∀ j, j < i → ∀ dj, ds[j]? = some dj →
        sqDist last.center di.center < sqDist last.center dj.center) :
    findBestMatch thr track ds = some di := by
  have hdimem : di ∈ ds := by
    obtain ⟨hlt, rfl⟩ := List.getElem?_eq_some.mp hdi
    exact List.getElem_mem hlt
  cases hres : findBestMatch thr track ds with
  | none =>
    exact absurd hacc (findBestMatch_none_all thr track ds last hlast hres di hdimem)
  | some d =>
    obtain ⟨pre, post, heq, haccd, hpre, hpost⟩ :=
      findBestMatch_some_split thr track ds last hlast d hres
    have hdmem : d ∈ ds := by
      rw [heq]; exact List.mem_append_right _ (List.mem_cons_self d post)
    -- the found candidate is no farther than di, and di is minimal, so equal
    have hle : sqDist last.center d.center ≤ sqDist last.center di.center := by
      rw [heq] at hdimem
      rcases List.mem_append.mp hdimem with hm | hm
      · exact le_of_lt (hpre di hm)
      · rcases List.mem_cons.mp hm with rfl | hm
        · exact le_refl _
        · exact hpost di hm
    have hge := hmin d hdmem
    have heqdist : sqDist last.center d.center = sqDist last.center di.center :=
      le_antisymm hle hge
    -- pin down the position of d: it sits at index pre.length
    have hgetd : ds[pre.length]? = some d := by
      rw [heq, List.getElem?_append_right (le_refl pre.length)]
      simp
    -- pre.length cannot exceed i: otherwise di would sit inside pre
    have hnotgt : ¬ i < pre.length := by
      intro hlt
      have : ds[i]? = pre[i]? := by
        rw [heq, List.getElem?_append, if_pos hlt]
      rw [this] at hdi
      have hmempre : di ∈ pre := by
        obtain ⟨hl, rfl⟩ := List.getElem?_eq_some.mp hdi
        exact List.getElem_mem hl
      have := hpre di hmempre
      omega
    -- pre.length cannot be below i either: hfirst would force a strict gap
    have hnotlt : ¬ pre.length < i := by
      intro hlt
      have := hfirst pre.length hlt d hgetd
      omega
    have : pre.length = i := by omega
    rw [this] at hgetd
    rw [hgetd] at hdi
    exact hdi

/-- C10 (witness): two detections tied at squared distance 100 from the
track's latest center; the earlier one (index 0) is matched. -/
theorem C10_tie_break_earliest_witness :
    ([dT1, dT2] : List Detection)[0]? = some dT1 ∧
    sqDist dA.center dT1.center = sqDist dA.center dT2.center ∧
    acceptsFirst 50 (sqDist dA.center dT1.center) ∧
    findBestMatch 50 tAlert0 [dT1, dT2] = some dT1 :=
  ⟨rfl, by decide, by decide,
   C10_tie_break_earliest 50 tAlert0 [dT1, dT2] dA rfl 0 dT1 rfl (by decide)
     (by decide)
     (fun j hj dj _ => absurd hj (Nat.not_lt_zero j))⟩
